import Mathlib

/-!
# Verification of the activitycat core

A shallow embedding of the activitycat core: the date-window constructors
(`internal/daterange`), the GitHub record model (`internal/github/models.go`),
the concurrent fetch join (`internal/github/client.go`, `FetchActivityCmd`),
the analytics engine (`internal/analytics/analytics.go`, `Compute`) and the
application state machine (`internal/app/app.go`).

Go machine integers are modelled as `Int`/`Nat` (no count here can overflow a
64-bit integer within the fetch cap of 1000 records), `time.Time` instants and
`time.Duration` values as `Int` nanoseconds, `float64` arithmetic as exact
rational (`ℚ`) arithmetic, and `*time.Time` as `Option Int`.  Record types
whose definitions are absent from the sources (`MergeTime`, `Review`,
`Commit`, `CommentedItem`) are modelled from the specification and marked as
such in their doc comments.
-/

namespace ActivityCat

/-- Nanoseconds per hour, matching Go `time.Hour`. -/
def nsPerHour : Int := 3600000000000

/-- Nanoseconds per day (24 hours of Go `time` nanoseconds). -/
def nsPerDay : Int := 86400000000000

/-! ## `internal/github/models.go` — record model -/

/-- `Repository` from `models.go`. -/
structure Repository where
  Name : String
  NameWithOwner : String
deriving DecidableEq

/-- `PullRequest` from `models.go`.  Times are `Int` nanoseconds since the
Unix epoch; the optional `closedAt` / `mergedAt` pointers are `Option`s. -/
structure PullRequest where
  Number : Int
  Title : String
  State : String
  Body : String
  CreatedAt : Int
  ClosedAt : Option Int
  MergedAt : Option Int
  Author : String
  Repository : Repository
  ReviewRequests : List String
deriving DecidableEq

/-- `PullRequest.IsOpen` from `models.go`: the raw state string is `"open"`. -/
def PullRequest.IsOpen (pr : PullRequest) : Bool :=
  pr.State == "open"

/-- `PullRequest.IsMerged` from `models.go`: the merge timestamp is present. -/
def PullRequest.IsMerged (pr : PullRequest) : Bool :=
  pr.MergedAt.isSome

/-- `PullRequest.IsClosed` from `models.go`: raw state `"closed"` and no merge
timestamp. -/
def PullRequest.IsClosed (pr : PullRequest) : Bool :=
  pr.State == "closed" && pr.MergedAt.isNone

/-- Modelled from the spec: `PullRequest.MergeTime` is called by
`analytics.go`, `client.go` and `prlist.go` but its definition is absent from
the sources.  Per §3 and the glossary, the effective merge moment is the merge
timestamp, falling back to the close timestamp for a record whose raw state is
`"merged"`; for other records there is no merge moment. -/
def PullRequest.MergeTime (pr : PullRequest) : Option Int :=
  match pr.MergedAt with
  | some t => some t
  | none => if pr.State == "merged" then pr.ClosedAt else none

/-- `Issue` from `models.go`. -/
structure Issue where
  Number : Int
  Title : String
  State : String
  Body : String
  CreatedAt : Int
  ClosedAt : Option Int
  Author : String
  Repository : Repository
deriving DecidableEq

/-- Modelled from the spec: the `Review` record (a pull request the user
reviewed, §3) is referenced by `analytics.go` and `client.go` but its
definition is absent from the sources. -/
structure Review where
  Number : Int
  Title : String
  State : String
  Author : String
  Repository : Repository
  CreatedAt : Int
  ClosedAt : Option Int
deriving DecidableEq

/-- Modelled from the spec: the `Commit` record `{sha, message, authorDate,
repository}` (§3) is referenced by `analytics.go` and `client.go` (as
`c.SHA`, `c.Commit.Message`, `c.Commit.Author.Date`, `c.Repository.FullName`)
but its definition is absent from the sources.  The nested Go shape is
flattened. -/
structure Commit where
  SHA : String
  Message : String
  AuthorDate : Int
  RepositoryFullName : String
deriving DecidableEq

/-- Modelled from the spec: the `CommentedItem` record `{id, title, state,
author, repository, commentCount, isPullRequest}` (§3) is referenced by
`analytics.go` and `client.go` (as `ci.Repository.NameWithOwner`, `item.IsPR`,
`item.Comments`) but its definition is absent from the sources. -/
structure CommentedItem where
  Number : Int
  Title : String
  State : String
  Author : String
  Repository : Repository
  Comments : Int
  IsPR : Bool
deriving DecidableEq

/-! ## `internal/daterange/daterange.go` -/

/-- `daterange.Range`: start and end instants (nanoseconds since epoch). -/
structure Range where
  Start : Int
  End : Int
deriving DecidableEq

/-- Leap year per the proleptic Gregorian calendar used by Go `time`. -/
def isLeapYear (y : Int) : Bool :=
  y % 4 == 0 && (y % 100 != 0 || y % 400 == 0)

/-- Days in a month, matching Go `time.daysIn`. -/
def daysInMonth (y m : Int) : Int :=
  if m == 2 then (if isLeapYear y then 29 else 28)
  else if m == 4 || m == 6 || m == 9 || m == 11 then 30
  else 31

/-- Days since the Unix epoch of a proleptic-Gregorian calendar date,
matching Go `time.Date(y, m, d, 0, 0, 0, 0, time.UTC)`. -/
def daysFromCivil (y m d : Int) : Int :=
  let y2 := if m ≤ 2 then y - 1 else y
  let era := (if 0 ≤ y2 then y2 else y2 - 399).tdiv 400
  let yoe := y2 - era * 400
  let mp := (m + 9) % 12
  let doy := (153 * mp + 2).tdiv 5 + d - 1
  let doe := yoe * 365 + yoe.tdiv 4 - yoe.tdiv 100 + doy
  era * 146097 + doe - 719468

/-- Go `time`'s digit test: the code point lies between `'0'` and `'9'`. -/
def isDigitChar (c : Char) : Bool := 48 ≤ c.toNat && c.toNat ≤ 57

/-- Numeric value of a decimal digit character. -/
def digitVal (c : Char) : Nat := c.toNat - 48

/-- Pure core of Go `time.Parse("2006-01-02", ·)` on the decoded character
list: the layout demands exactly four year digits, a dash, exactly two month
digits, a dash, exactly two day digits and no trailing text, and the parsed
month and day must be in calendar range.  The result is the instant of that
midnight UTC instant of that date in nanoseconds since the epoch. -/
def parseDateChars : List Char → Option Int
  | [y1, y2, y3, y4, s1, m1, m2, s2, d1, d2] =>
    if isDigitChar y1 && isDigitChar y2 && isDigitChar y3 && isDigitChar y4 &&
       s1 == '-' && isDigitChar m1 && isDigitChar m2 && s2 == '-' &&
       isDigitChar d1 && isDigitChar d2 then
      let y : Int := (1000 * digitVal y1 + 100 * digitVal y2 +
                      10 * digitVal y3 + digitVal y4 : Nat)
      let mo : Int := (10 * digitVal m1 + digitVal m2 : Nat)
      let da : Int := (10 * digitVal d1 + digitVal d2 : Nat)
      if 1 ≤ mo && mo ≤ 12 && 1 ≤ da && da ≤ daysInMonth y mo then
        some (daysFromCivil y mo da * nsPerDay)
      else none
    else none
  | _ => none

/-- `daterange.Parse`: Go `time.Parse("2006-01-02", s)`. -/
def Parse (s : String) : Option Int :=
  parseDateChars s.data

/-- `daterange.Custom`: parse both date strings and reject an end date that
precedes the start date, propagating each failure as the corresponding Go
error message. -/
def Custom (startStr endStr : String) : Except String Range :=
  match Parse startStr with
  | none => .error "invalid start date"
  | some s =>
    match Parse endStr with
    | none => .error "invalid end date"
    | some e =>
      if e < s then .error "end date must not be before start date"
      else .ok { Start := s, End := e }

/-- The decimal digit character for `n < 10`. -/
def digitChar (n : Nat) : Char := Char.ofNat (48 + n)

/-- Two-digit zero-padded decimal rendering. -/
def pad2 (n : Nat) : List Char := [digitChar (n / 10), digitChar (n % 10)]

/-- Four-digit zero-padded decimal rendering. -/
def pad4 (n : Nat) : List Char :=
  [digitChar (n / 1000), digitChar (n / 100 % 10), digitChar (n / 10 % 10),
   digitChar (n % 10)]

/-- Modelled from the words of the spec: a string is a well-formed `YYYY-MM-DD`
calendar date when it is the zero-padded rendering of a year, a month in
`1..12` and a day valid for that month, separated by dashes.  This definition
is written from the specification, independently of `parseDateChars`, and is
compared with it in the `C8` theorem. -/
def IsValidDateString (s : String) : Prop :=
  ∃ y m d : Nat, y ≤ 9999 ∧ 1 ≤ m ∧ m ≤ 12 ∧ 1 ≤ d ∧
    (d : Int) ≤ daysInMonth (y : Int) (m : Int) ∧
    s.data = pad4 y ++ '-' :: (pad2 m ++ '-' :: pad2 d)

/-! ## `internal/analytics/analytics.go` -/

/-- `analytics.RepoStats`: one per-repository rollup row. -/
structure RepoStats where
  Repo : String
  PRs : Nat
  Issues : Nat
  Reviews : Nat
  Commits : Nat
  CommentedItems : Nat
  Total : Nat
deriving DecidableEq

/-- `analytics.Metrics`.  The private `days` field only feeds the rate
denominators and is kept for faithfulness.  `MostActiveDay` is the UTC day
index (days since epoch) standing for the `"2006-01-02"`-formatted key, which
is in bijection with it. -/
structure Metrics where
  PRsOpened : Nat
  PRsMerged : Nat
  PRsClosed : Nat
  PRsOpen : Nat
  MergeRate : ℚ
  AvgMergeTime : Int
  MedMergeTime : Int
  TotalCommits : Nat
  TotalReviews : Nat
  TotalCommentedItems : Nat
  TotalIssuesClosed : Nat
  PRsPerWeek : ℚ
  CommitsPerDay : ℚ
  ReviewsPerWeek : ℚ
  RepoStats : List ActivityCat.RepoStats
  MostActiveDay : Option Int
  MostActiveCount : Nat
  days : ℚ

/-- The PR-lifecycle loop of `Compute` (lines 79–95): one pass over the pull
requests yielding the merged / open / closed-not-merged / fallback counters
and the merge-duration samples in encounter order. -/
def prLifecycle : List PullRequest → Nat × Nat × Nat × Nat × List Int
  | [] => (0, 0, 0, 0, [])
  | pr :: rest =>
    let l := prLifecycle rest
    if pr.IsMerged then
      (l.1 + 1, l.2.1, l.2.2.1, l.2.2.2.1,
        (match pr.MergeTime with
         | some t => [t - pr.CreatedAt]
         | none => []) ++ l.2.2.2.2)
    else if pr.IsOpen then (l.1, l.2.1 + 1, l.2.2.1, l.2.2.2.1, l.2.2.2.2)
    else if pr.IsClosed then (l.1, l.2.1, l.2.2.1 + 1, l.2.2.2.1, l.2.2.2.2)
    else (l.1, l.2.1, l.2.2.1, l.2.2.2.1 + 1, l.2.2.2.2)

/-- The merge-duration sample list the lifecycle loop collects. -/
def mergeTimesOf (prs : List PullRequest) : List Int :=
  (prLifecycle prs).2.2.2.2

/-- The zero rollup row `getRepo` allocates for a new repository name. -/
def zeroRow (name : String) : RepoStats :=
  { Repo := name, PRs := 0, Issues := 0, Reviews := 0, Commits := 0,
    CommentedItems := 0, Total := 0 }

/-- `getRepo` followed by a per-kind increment: find the row for `name`
(inserting a zero row if absent — Go allocates rows in a map; rows are kept
here in first-use order, which the order-insensitive rollup claims and the
final sort do not depend on) and apply the increment `f` to it. -/
def addStat (name : String) (f : RepoStats → RepoStats) :
    List RepoStats → List RepoStats
  | [] => [f (zeroRow name)]
  | rs :: rest =>
    if rs.Repo = name then f rs :: rest else rs :: addStat name f rest

/-- The `…PRs++` increment of the rollup. -/
def bumpPRs (r : RepoStats) : RepoStats := { r with PRs := r.PRs + 1 }

/-- The `…Issues++` increment of the rollup. -/
def bumpIssues (r : RepoStats) : RepoStats := { r with Issues := r.Issues + 1 }

/-- The `…Reviews++` increment of the rollup. -/
def bumpReviews (r : RepoStats) : RepoStats := { r with Reviews := r.Reviews + 1 }

/-- The `…Commits++` increment of the rollup. -/
def bumpCommits (r : RepoStats) : RepoStats := { r with Commits := r.Commits + 1 }

/-- The `…CommentedItems++` increment of the rollup. -/
def bumpCommented (r : RepoStats) : RepoStats :=
  { r with CommentedItems := r.CommentedItems + 1 }

/-- The five accumulation passes of the repo breakdown (lines 136–150). -/
def rollupRaw (prs : List PullRequest) (issues : List Issue)
    (reviews : List Review) (commits : List Commit)
    (commentedItems : List CommentedItem) : List RepoStats :=
  commentedItems.foldl
    (fun acc ci => addStat ci.Repository.NameWithOwner bumpCommented acc)
    (commits.foldl
      (fun acc c => addStat c.RepositoryFullName bumpCommits acc)
      (reviews.foldl
        (fun acc rv => addStat rv.Repository.NameWithOwner bumpReviews acc)
        (issues.foldl
          (fun acc i => addStat i.Repository.NameWithOwner bumpIssues acc)
          (prs.foldl
            (fun acc pr => addStat pr.Repository.NameWithOwner bumpPRs acc)
            []))))

/-- The grand-total pass (lines 152–155). -/
def withTotals (l : List RepoStats) : List RepoStats :=
  l.map (fun rs => { rs with
    Total := rs.PRs + rs.Issues + rs.Reviews + rs.Commits + rs.CommentedItems })

/-- The descending-by-total order used by the rollup sort (line 156). -/
def repoOrder (a b : RepoStats) : Prop := b.Total ≤ a.Total

instance : DecidableRel repoOrder :=
  fun a b => inferInstanceAs (Decidable (b.Total ≤ a.Total))

instance : IsTotal RepoStats repoOrder :=
  ⟨fun a b => Nat.le_total b.Total a.Total⟩

instance : IsTrans RepoStats repoOrder :=
  ⟨fun _ _ _ hab hbc => Nat.le_trans hbc hab⟩

/-- The day-bucketing loop of the most-active-day computation: count
activities per UTC day (pull requests by creation date, closed issues by
close date, reviews by creation date, commits by author date).  Buckets are
kept in first-seen order (Go iterates a map in unspecified order; no claim
depends on the tie-break). -/
def dayBuckets (prs : List PullRequest) (issues : List Issue)
    (reviews : List Review) (commits : List Commit) : List (Int × Nat) :=
  let addDay := fun (acc : List (Int × Nat)) (t : Int) =>
    let key := t.ediv nsPerDay
    if acc.any (fun p => p.1 == key) then
      acc.map (fun p => if p.1 == key then (p.1, p.2 + 1) else p)
    else acc ++ [(key, 1)]
  let acc := prs.foldl (fun acc pr => addDay acc pr.CreatedAt) []
  let acc := issues.foldl (fun acc i =>
    match i.ClosedAt with
    | some t => addDay acc t
    | none => acc) acc
  let acc := reviews.foldl (fun acc r => addDay acc r.CreatedAt) acc
  commits.foldl (fun acc c => addDay acc c.AuthorDate) acc

/-- The max-selection loop over the day buckets (strictly-greater update,
starting from a zero count and no day). -/
def mostActive (buckets : List (Int × Nat)) : Option Int × Nat :=
  buckets.foldl
    (fun best p => if p.2 > best.2 then (some p.1, p.2) else best)
    (none, 0)

/-- `analytics.Compute` (lines 59–189): the analytics engine. -/
def Compute (prs : List PullRequest) (issues : List Issue)
    (reviews : List Review) (commits : List Commit)
    (commentedItems : List CommentedItem) (dr : Range) : Metrics :=
  let days0 : ℚ := ((dr.End - dr.Start : Int) : ℚ) / (nsPerHour : ℚ) / 24
  let days := if days0 < 1 then 1 else days0
  let weeks0 := days / 7
  let weeks := if weeks0 < 1 then 1 else weeks0
  let lc := prLifecycle prs
  let prsMerged := lc.1
  let prsOpen := lc.2.1
  let prsClosed := lc.2.2.1
  let mergeTimes := lc.2.2.2.2
  let resolved := prsMerged + prsClosed
  let mergeRate : ℚ :=
    if resolved > 0 then (prsMerged : ℚ) / (resolved : ℚ) * 100 else 0
  let sortedTimes := mergeTimes.insertionSort (· ≤ ·)
  let avgMergeTime : Int :=
    if mergeTimes.length > 0 then
      (sortedTimes.foldl (· + ·) 0).tdiv mergeTimes.length
    else 0
  let medMergeTime : Int :=
    if mergeTimes.length > 0 then
      sortedTimes.getD (mergeTimes.length / 2) 0
    else 0
  let repoStats :=
    (withTotals (rollupRaw prs issues reviews commits commentedItems)).insertionSort
      repoOrder
  let ma := mostActive (dayBuckets prs issues reviews commits)
  { PRsOpened := prs.length
    PRsMerged := prsMerged
    PRsClosed := prsClosed
    PRsOpen := prsOpen
    MergeRate := mergeRate
    AvgMergeTime := avgMergeTime
    MedMergeTime := medMergeTime
    TotalCommits := commits.length
    TotalReviews := reviews.length
    TotalCommentedItems := commentedItems.length
    TotalIssuesClosed := issues.length
    PRsPerWeek := (prs.length : ℚ) / weeks
    CommitsPerDay := (commits.length : ℚ) / days
    ReviewsPerWeek := (reviews.length : ℚ) / weeks
    RepoStats := repoStats
    MostActiveDay := ma.1
    MostActiveCount := ma.2
    days := days }

/-! ## `internal/github/client.go` — the concurrent fetch join -/

/-- `ActivityLoadedMsg` from `client.go`. -/
structure ActivityLoadedMsg where
  PRs : List PullRequest
  Issues : List Issue
  Reviews : List Review
  Commits : List Commit
  CommentedItems : List CommentedItem
  Error : Option String
deriving DecidableEq

/-- The Go multi-assignment `v, err = Fetch…(…)`: the value slot on failure
is `nil`, modelled as the empty list. -/
def fetchValue {α : Type} : Except String (List α) → List α
  | .ok l => l
  | .error _ => []

/-- The error slot of a sub-fetch outcome. -/
def fetchErr {α : Type} : Except String (List α) → Option String
  | .ok _ => none
  | .error e => some e

/-- The pure tail of `FetchCommentedPRs`: after a successful parse, every
item is tagged `IsPR = true`; a failure is propagated unchanged. -/
def FetchCommentedPRs (parsed : Except String (List CommentedItem)) :
    Except String (List CommentedItem) :=
  parsed.map (List.map (fun it => { it with IsPR := true }))

/-- The pure tail of `FetchCommentedIssues`: after a successful parse, every
item is tagged `IsPR = false`; a failure is propagated unchanged. -/
def FetchCommentedIssues (parsed : Except String (List CommentedItem)) :
    Except String (List CommentedItem) :=
  parsed.map (List.map (fun it => { it with IsPR := false }))

/-- The error-priority scan of `FetchActivityCmd` (lines 262–266): the Go
`for` loop returns on the first non-nil error in slice order. -/
def firstSome : List (Option String) → Option String
  | [] => none
  | some e :: _ => some e
  | none :: rest => firstSome rest

/-- `FetchActivityCmd` after the join barrier (lines 212–279).  Each argument
is the outcome of the request/parse pair of one sub-fetch, in the fixed slot order
of the Go error scan; the six goroutines write to private slots and the
barrier orders all writes before this continuation, so the aggregate is a
pure function of the six outcomes, independent of completion order. -/
def FetchActivityCmd
    (prRes : Except String (List PullRequest))
    (issueRes : Except String (List Issue))
    (reviewRes : Except String (List Review))
    (commitRes : Except String (List Commit))
    (commentPRParsed commentIssueParsed : Except String (List CommentedItem)) :
    ActivityLoadedMsg :=
  let commentPRRes := FetchCommentedPRs commentPRParsed
  let commentIssueRes := FetchCommentedIssues commentIssueParsed
  match firstSome [fetchErr prRes, fetchErr issueRes, fetchErr reviewRes,
                   fetchErr commitRes, fetchErr commentPRRes,
                   fetchErr commentIssueRes] with
  | some e =>
    { PRs := [], Issues := [], Reviews := [], Commits := [],
      CommentedItems := [], Error := some e }
  | none =>
    { PRs := fetchValue prRes
      Issues := fetchValue issueRes
      Reviews := fetchValue reviewRes
      Commits := fetchValue commitRes
      CommentedItems := fetchValue commentPRRes ++ fetchValue commentIssueRes
      Error := none }

/-! ## `internal/app/app.go` — the application state machine

Sub-screens (date selector, loading spinner, list, prompt selector, report
viewer) are external collaborators per the scope set by the spec; delegating a message
to the active sub-screen never changes the app-level `state` or `err`, so
their internal state is not modelled. -/

/-- `app.State`. -/
inductive State where
  | SelectDate
  | Loading
  | PRList
  | PromptSelect
  | Generating
  | Report
  | Error
deriving DecidableEq

/-- `config.Prompt`. -/
structure Prompt where
  Name : String
  Content : String
deriving DecidableEq

/-- The app-level fields of `app.Model` (sub-screen models omitted, see
above). -/
structure Model where
  state : State
  width : Int
  height : Int
  selectedRange : Range
  prs : List PullRequest
  issues : List Issue
  prompts : List Prompt
  selectedPrompt : Prompt
  generatedReport : String
  err : Option String
deriving DecidableEq

/-- The messages `app.Update` dispatches on. -/
inductive Msg where
  | windowSize (w h : Int)
  | key (s : String)
  | dateSelected (r : Range)
  | prsLoaded (prs : List PullRequest) (issues : List Issue) (e : Option String)
  | listContinue
  | listBack
  | promptSelected (p : Prompt)
  | promptBack
  | reportGenerated (report : String) (e : Option String)
  | reportBack
deriving DecidableEq

/-- The commands the state machine can emit (`tea.Quit`, the fetch command,
the report-generation command, or nothing). -/
inductive AppCmd where
  | none
  | quit
  | fetchPRs (r : Range)
  | generateReport (prompt : String)
deriving DecidableEq

/-- `app.New` (lines 53–63): the model starts in date selection with the
loaded prompts and an empty session. -/
def New (prompts : List Prompt) : Model :=
  { state := .SelectDate
    width := 0
    height := 0
    selectedRange := { Start := 0, End := 0 }
    prs := []
    issues := []
    prompts := prompts
    selectedPrompt := { Name := "", Content := "" }
    generatedReport := ""
    err := none }

/-- `app.updateCurrentState` (lines 163–186): delegate to the active
sub-screen; in the error state any key returns to date selection and clears
the error. -/
def updateCurrentState (m : Model) (msg : Msg) : Model × AppCmd :=
  match m.state with
  | .Error =>
    match msg with
    | .key _ => ({ m with state := .SelectDate, err := none }, .none)
    | _ => (m, .none)
  | _ => (m, .none)

/-- `app.Update` (lines 71–160): the message dispatch.  `ctrl+c` quits from
any state; `WindowSizeMsg` records the size and falls through to the active
sub-screen; the remaining messages drive the transition table. -/
def Update (m : Model) (msg : Msg) : Model × AppCmd :=
  match msg with
  | .windowSize w h => updateCurrentState { m with width := w, height := h } msg
  | .key s =>
    if s == "ctrl+c" then (m, .quit) else updateCurrentState m msg
  | .dateSelected r =>
    ({ m with selectedRange := r, state := .Loading }, .fetchPRs r)
  | .prsLoaded prs issues e =>
    match e with
    | some er => ({ m with err := some er, state := .Error }, .none)
    | none => ({ m with prs := prs, issues := issues, state := .PRList }, .none)
  | .listContinue => ({ m with state := .PromptSelect }, .none)
  | .listBack => ({ m with state := .SelectDate }, .none)
  | .promptSelected p =>
    ({ m with selectedPrompt := p, state := .Generating },
      .generateReport p.Content)
  | .promptBack => ({ m with state := .PRList }, .none)
  | .reportGenerated rep e =>
    match e with
    | some er => ({ m with err := some er, state := .Error }, .none)
    | none =>
      ({ m with generatedReport := rep, state := .Report }, .none)
  | .reportBack => ({ m with state := .PromptSelect }, .none)

/-! ## Helper lemmas and concrete records -/

/-- Each pull request is counted by exactly one branch of the lifecycle
loop: the four counters always sum to the number of records. -/
theorem prLifecycle_counts_total (prs : List PullRequest) :
    (prLifecycle prs).1 + (prLifecycle prs).2.1 + (prLifecycle prs).2.2.1 +
      (prLifecycle prs).2.2.2.1 = prs.length := by
  induction prs with
  | nil => rfl
  | cons pr rest ih =>
    simp only [prLifecycle, List.length_cons]
    split_ifs <;> simp <;> omega

/-- If the raw state of every record is one of `open`/`closed`/`merged` and every
state-`"merged"` record carries a merge timestamp, the fallback branch of the
lifecycle loop is never taken. -/
theorem prLifecycle_fallback_zero (prs : List PullRequest)
    (h : ∀ pr ∈ prs,
      (pr.State = "open" ∨ pr.State = "closed" ∨ pr.State = "merged") ∧
      (pr.State = "merged" → pr.MergedAt ≠ none)) :
    (prLifecycle prs).2.2.2.1 = 0 := by
  induction prs with
  | nil => rfl
  | cons pr rest ih =>
    have hpr := h pr (List.mem_cons_self pr rest)
    have hrest := ih (fun q hq => h q (List.mem_cons_of_mem pr hq))
    simp only [prLifecycle]
    split_ifs with h1 h2 h3
    · simpa using hrest
    · simpa using hrest
    · simpa using hrest
    · exfalso
      simp only [PullRequest.IsMerged, Bool.not_eq_true, Option.not_isSome,
        Option.isNone_iff_eq_none] at h1
      simp only [PullRequest.IsOpen, beq_iff_eq] at h2
      simp only [PullRequest.IsClosed, Bool.and_eq_true, beq_iff_eq,
        Option.isNone_iff_eq_none, not_and] at h3
      rcases hpr.1 with hs | hs | hs
      · exact h2 hs
      · exact h3 hs h1
      · exact hpr.2 hs h1

/-- A pull request whose raw state reports `"merged"` but whose merge
timestamp is absent (the situation §3 of the spec describes). -/
def stalePR : PullRequest :=
  { Number := 7, Title := "stale merge", State := "merged", Body := "",
    CreatedAt := 0, ClosedAt := some (5 * nsPerDay), MergedAt := none,
    Author := "cat", Repository := { Name := "r", NameWithOwner := "o/r" },
    ReviewRequests := [] }

/-- A pull request merged two days after creation. -/
def mergedPR : PullRequest :=
  { Number := 8, Title := "landed", State := "merged", Body := "",
    CreatedAt := 0, ClosedAt := some (2 * nsPerDay),
    MergedAt := some (2 * nsPerDay),
    Author := "cat", Repository := { Name := "r", NameWithOwner := "o/r" },
    ReviewRequests := [] }

/-- An open pull request. -/
def openPR : PullRequest :=
  { Number := 9, Title := "wip", State := "open", Body := "",
    CreatedAt := nsPerDay, ClosedAt := none, MergedAt := none,
    Author := "cat", Repository := { Name := "r", NameWithOwner := "o/r" },
    ReviewRequests := [] }

/-- A pull request closed without being merged. -/
def closedPR : PullRequest :=
  { Number := 10, Title := "rejected", State := "closed", Body := "",
    CreatedAt := 0, ClosedAt := some nsPerDay, MergedAt := none,
    Author := "cat", Repository := { Name := "r", NameWithOwner := "o/r" },
    ReviewRequests := [] }

/-- A one-day window. -/
def oneDayRange : Range := { Start := 0, End := nsPerDay }

/-- An app model sitting in the error state. -/
def errModel : Model := { New [] with state := .Error, err := some "boom" }

/-! ## Claims -/

/-- C1, counterexample: on the code as written, a record whose raw state is
`"merged"` but whose `MergedAt` is absent is NOT classified as merged —
`IsMerged` tests only the timestamp — so the analytics engine counts it in no
merged bucket and records no merge-duration sample for it. -/
theorem c1_counterexample :
    stalePR.State = "merged" ∧ stalePR.MergedAt = none ∧
    stalePR.IsMerged = false ∧
    (Compute [stalePR] [] [] [] [] oneDayRange).PRsMerged = 0 ∧
    mergeTimesOf [stalePR] = [] :=
  ⟨rfl, rfl, rfl, rfl, rfl⟩

/-- C1, amended: the classification treats a record as merged exactly when
its `MergedAt` timestamp is present, regardless of the raw state string, and
for every record classified merged the merge moment used for the duration
sample is the `MergedAt` timestamp itself (so the closedAt fallback of the
spec-modelled `MergeTime` is never exercised for a classified-merged
record). -/
theorem c1_amended (pr : PullRequest) :
    (pr.IsMerged = true ↔ pr.MergedAt ≠ none) ∧
    (pr.IsMerged = true → pr.MergeTime = pr.MergedAt) := by
  constructor
  · simp [PullRequest.IsMerged, Option.isSome_iff_ne_none]
  · intro h
    simp only [PullRequest.IsMerged, Option.isSome_iff_exists] at h
    obtain ⟨t, ht⟩ := h
    simp [PullRequest.MergeTime, ht]

/-- C1, witness: the amended claim evaluated on a merged record. -/
theorem c1_witness :
    mergedPR.IsMerged = true ∧ mergedPR.MergeTime = mergedPR.MergedAt :=
  ⟨by decide, (c1_amended mergedPR).2 (by decide)⟩

/-- C2, counterexample: a single record with raw state `"merged"` and no
merge timestamp is counted in none of the three lifecycle categories, so
`merged + closed + open = 0 ≠ 1 = total`. -/
theorem c2_counterexample :
    stalePR.State = "merged" ∧
    (Compute [stalePR] [] [] [] [] oneDayRange).PRsMerged +
      (Compute [stalePR] [] [] [] [] oneDayRange).PRsClosed +
      (Compute [stalePR] [] [] [] [] oneDayRange).PRsOpen = 0 ∧
    [stalePR].length = 1 :=
  ⟨rfl, rfl, rfl⟩

/-- C2, amended: for every list of pull-request records whose raw state is
drawn from `{open, merged, closed}` AND in which every state-`"merged"`
record carries a merge timestamp, `PRsMerged + PRsClosed + PRsOpen` equals
the total count (each record being counted by exactly one branch of the
classification loop). -/
theorem c2_amended (prs : List PullRequest) (issues : List Issue)
    (reviews : List Review) (commits : List Commit)
    (items : List CommentedItem) (dr : Range)
    (h : ∀ pr ∈ prs,
      (pr.State = "open" ∨ pr.State = "closed" ∨ pr.State = "merged") ∧
      (pr.State = "merged" → pr.MergedAt ≠ none)) :
    (Compute prs issues reviews commits items dr).PRsMerged +
      (Compute prs issues reviews commits items dr).PRsClosed +
      (Compute prs issues reviews commits items dr).PRsOpen = prs.length := by
  have h1 := prLifecycle_counts_total prs
  have h2 := prLifecycle_fallback_zero prs h
  show (prLifecycle prs).1 + (prLifecycle prs).2.2.1 + (prLifecycle prs).2.1 =
    prs.length
  omega

/-- C2, witness: the amended partition on a merged/open/closed triple. -/
theorem c2_witness :
    (∀ pr ∈ [mergedPR, openPR, closedPR],
      (pr.State = "open" ∨ pr.State = "closed" ∨ pr.State = "merged") ∧
      (pr.State = "merged" → pr.MergedAt ≠ none)) ∧
    (Compute [mergedPR, openPR, closedPR] [] [] [] [] oneDayRange).PRsMerged +
      (Compute [mergedPR, openPR, closedPR] [] [] [] [] oneDayRange).PRsClosed +
      (Compute [mergedPR, openPR, closedPR] [] [] [] [] oneDayRange).PRsOpen =
      [mergedPR, openPR, closedPR].length :=
  ⟨by decide,
    c2_amended [mergedPR, openPR, closedPR] [] [] [] [] oneDayRange (by decide)⟩

/-- C5: the merge rate equals `merged / (merged + closed) × 100` whenever
some PR was resolved, is exactly `0` when none was, and always lies in
`[0, 100]`. -/
theorem c5_merge_rate (prs : List PullRequest) (issues : List Issue)
    (reviews : List Review) (commits : List Commit)
    (items : List CommentedItem) (dr : Range) :
    ((Compute prs issues reviews commits items dr).MergeRate =
      (if 0 < (Compute prs issues reviews commits items dr).PRsMerged +
              (Compute prs issues reviews commits items dr).PRsClosed then
        ((Compute prs issues reviews commits items dr).PRsMerged : ℚ) /
          (((Compute prs issues reviews commits items dr).PRsMerged : ℚ) +
           ((Compute prs issues reviews commits items dr).PRsClosed : ℚ)) * 100
       else 0)) ∧
    0 ≤ (Compute prs issues reviews commits items dr).MergeRate ∧
    (Compute prs issues reviews commits items dr).MergeRate ≤ 100 := by
  set a := (prLifecycle prs).1 with ha
  set c := (prLifecycle prs).2.2.1 with hc
  have hrate : (Compute prs issues reviews commits items dr).MergeRate =
      if a + c > 0 then (a : ℚ) / ((a + c : Nat) : ℚ) * 100 else 0 := rfl
  have hm : (Compute prs issues reviews commits items dr).PRsMerged = a := rfl
  have hcl : (Compute prs issues reviews commits items dr).PRsClosed = c := rfl
  rw [hrate, hm, hcl]
  by_cases hpos : 0 < a + c
  · have hden : (0 : ℚ) < (a : ℚ) + (c : ℚ) := by
      have : (0 : ℚ) < ((a + c : Nat) : ℚ) := by exact_mod_cast hpos
      push_cast at this
      linarith
    rw [if_pos hpos, if_pos hpos]
    push_cast
    refine ⟨rfl, ?_, ?_⟩
    · positivity
    · have hfrac : (a : ℚ) / ((a : ℚ) + (c : ℚ)) ≤ 1 := by
        rw [div_le_one hden]
        have hc0 : (0 : ℚ) ≤ (c : ℚ) := Nat.cast_nonneg c
        linarith
      nlinarith
  · rw [if_neg hpos, if_neg hpos]
    norm_num

/-- C9: the state machine starts in the window-selection state; from the
error state, any key other than the global quit chord returns to window
selection with the stored error cleared (and does not quit); and no state is
terminal — every state has an outgoing, non-quitting transition. -/
theorem c9_state_machine :
    (∀ prompts : List Prompt, (New prompts).state = State.SelectDate) ∧
    (∀ (m : Model) (k : String), m.state = State.Error → k ≠ "ctrl+c" →
      (Update m (.key k)).1.state = State.SelectDate ∧
      (Update m (.key k)).1.err = none ∧
      (Update m (.key k)).2 ≠ AppCmd.quit) ∧
    (∀ s : State, ∃ (m : Model) (msg : Msg),
      m.state = s ∧ (Update m msg).2 ≠ AppCmd.quit ∧
      (Update m msg).1.state ≠ s) := by
  refine ⟨fun _ => rfl, ?_, ?_⟩
  · intro m k hst hk
    have hbeq : (k == "ctrl+c") = false := by simp [hk]
    simp only [Update, hbeq, if_false, updateCurrentState, hst]
    exact ⟨rfl, rfl, by simp⟩
  · intro s
    cases s
    case SelectDate =>
      exact ⟨New [], .dateSelected oneDayRange, by decide⟩
    case Loading =>
      exact ⟨{ New [] with state := .Loading }, .prsLoaded [] [] none, by decide⟩
    case PRList =>
      exact ⟨{ New [] with state := .PRList }, .listContinue, by decide⟩
    case PromptSelect =>
      exact ⟨{ New [] with state := .PromptSelect },
        .promptSelected { Name := "p", Content := "c" }, by decide⟩
    case Generating =>
      exact ⟨{ New [] with state := .Generating }, .reportGenerated "r" none,
        by decide⟩
    case Report =>
      exact ⟨{ New [] with state := .Report }, .reportBack, by decide⟩
    case Error =>
      exact ⟨{ New [] with state := .Error }, .key "enter", by decide⟩

/-- C9, witness: a key press in the error state returns to window selection
and clears the error. -/
theorem c9_witness :
    (Update errModel (Msg.key "enter")).1.state = State.SelectDate ∧
    (Update errModel (Msg.key "enter")).1.err = none ∧
    (Update errModel (Msg.key "enter")).2 ≠ AppCmd.quit :=
  c9_state_machine.2.1 errModel "enter" rfl (by decide)

/-- C10: `PRsOpened` is unconditionally overwritten to the input length after
the classification loop, so it equals the total even on an input (such as a
state-`"merged"` record without a merge timestamp) that no lifecycle branch
counts. -/
theorem c10_prs_opened (prs : List PullRequest) (issues : List Issue)
    (reviews : List Review) (commits : List Commit)
    (items : List CommentedItem) (dr : Range) :
    (Compute prs issues reviews commits items dr).PRsOpened = prs.length ∧
    (Compute [stalePR] [] [] [] [] oneDayRange).PRsMerged +
      (Compute [stalePR] [] [] [] [] oneDayRange).PRsClosed +
      (Compute [stalePR] [] [] [] [] oneDayRange).PRsOpen = 0 ∧
    (Compute [stalePR] [] [] [] [] oneDayRange).PRsOpened = 1 :=
  ⟨rfl, rfl, rfl⟩

/-- C3: whatever the combination of sub-fetch outcomes, if at least one of
the six failed the aggregate carries only an error and every collection is
empty, and the reported error is the first failure in the fixed priority
order PRs, Issues, Reviews, Commits, CommentedPRs, CommentedIssues (the join
is a pure function of the six outcome slots, so this is independent of
completion order). -/
theorem c3_fetch_failure
    (prRes : Except String (List PullRequest))
    (issueRes : Except String (List Issue))
    (reviewRes : Except String (List Review))
    (commitRes : Except String (List Commit))
    (cprRes cciRes : Except String (List CommentedItem)) :
    (¬(prRes.isOk = true ∧ issueRes.isOk = true ∧ reviewRes.isOk = true ∧
       commitRes.isOk = true ∧ cprRes.isOk = true ∧ cciRes.isOk = true) →
      (FetchActivityCmd prRes issueRes reviewRes commitRes cprRes cciRes).Error ≠ none ∧
      (FetchActivityCmd prRes issueRes reviewRes commitRes cprRes cciRes).PRs = [] ∧
      (FetchActivityCmd prRes issueRes reviewRes commitRes cprRes cciRes).Issues = [] ∧
      (FetchActivityCmd prRes issueRes reviewRes commitRes cprRes cciRes).Reviews = [] ∧
      (FetchActivityCmd prRes issueRes reviewRes commitRes cprRes cciRes).Commits = [] ∧
      (FetchActivityCmd prRes issueRes reviewRes commitRes cprRes cciRes).CommentedItems = []) ∧
    (∀ e, prRes = .error e →
      (FetchActivityCmd prRes issueRes reviewRes commitRes cprRes cciRes).Error = some e) ∧
    (∀ e, prRes.isOk = true → issueRes = .error e →
      (FetchActivityCmd prRes issueRes reviewRes commitRes cprRes cciRes).Error = some e) ∧
    (∀ e, prRes.isOk = true → issueRes.isOk = true → reviewRes = .error e →
      (FetchActivityCmd prRes issueRes reviewRes commitRes cprRes cciRes).Error = some e) ∧
    (∀ e, prRes.isOk = true → issueRes.isOk = true → reviewRes.isOk = true →
      commitRes = .error e →
      (FetchActivityCmd prRes issueRes reviewRes commitRes cprRes cciRes).Error = some e) ∧
    (∀ e, prRes.isOk = true → issueRes.isOk = true → reviewRes.isOk = true →
      commitRes.isOk = true → cprRes = .error e →
      (FetchActivityCmd prRes issueRes reviewRes commitRes cprRes cciRes).Error = some e) ∧
    (∀ e, prRes.isOk = true → issueRes.isOk = true → reviewRes.isOk = true →
      commitRes.isOk = true → cprRes.isOk = true → cciRes = .error e →
      (FetchActivityCmd prRes issueRes reviewRes commitRes cprRes cciRes).Error = some e) := by
  cases prRes <;> cases issueRes <;> cases reviewRes <;> cases commitRes <;>
    cases cprRes <;> cases cciRes <;>
    simp [FetchActivityCmd, FetchCommentedPRs, FetchCommentedIssues, fetchErr,
      fetchValue, firstSome, Except.isOk, Except.toBool, Except.map]

/-- C3, witness: the third sub-operation failing while the rest succeed
yields the failure itself, with no partial data. -/
theorem c3_witness :
    (FetchActivityCmd (Except.ok ([] : List PullRequest))
        (Except.ok ([] : List Issue)) (Except.error "kaboom")
        (Except.ok ([] : List Commit)) (Except.ok ([] : List CommentedItem))
        (Except.ok ([] : List CommentedItem))).Error = some "kaboom" ∧
    (FetchActivityCmd (Except.ok ([] : List PullRequest))
        (Except.ok ([] : List Issue)) (Except.error "kaboom")
        (Except.ok ([] : List Commit)) (Except.ok ([] : List CommentedItem))
        (Except.ok ([] : List CommentedItem))).CommentedItems = [] :=
  ⟨(c3_fetch_failure _ _ _ _ _ _).2.2.2.1 "kaboom" rfl rfl rfl,
    ((c3_fetch_failure (Except.ok ([] : List PullRequest))
        (Except.ok ([] : List Issue)) (Except.error "kaboom")
        (Except.ok ([] : List Commit)) (Except.ok ([] : List CommentedItem))
        (Except.ok ([] : List CommentedItem))).1 (by simp [Except.isOk, Except.toBool])).2.2.2.2.2⟩

/-- C7: on a fully successful fetch, the commented-items collection is the
commented-PRs list followed by the commented-issues list, order inside each
source preserved, every element of the first part tagged `IsPR = true` and
every element of the second part tagged `IsPR = false`. -/
theorem c7_commented_concat (prs : List PullRequest) (issues : List Issue)
    (reviews : List Review) (commits : List Commit)
    (a b : List CommentedItem) :
    (FetchActivityCmd (.ok prs) (.ok issues) (.ok reviews) (.ok commits)
        (.ok a) (.ok b)).Error = none ∧
    (FetchActivityCmd (.ok prs) (.ok issues) (.ok reviews) (.ok commits)
        (.ok a) (.ok b)).CommentedItems =
      a.map (fun it => { it with IsPR := true }) ++
      b.map (fun it => { it with IsPR := false }) ∧
    ((FetchActivityCmd (.ok prs) (.ok issues) (.ok reviews) (.ok commits)
        (.ok a) (.ok b)).CommentedItems).take a.length =
      a.map (fun it => { it with IsPR := true }) ∧
    ((FetchActivityCmd (.ok prs) (.ok issues) (.ok reviews) (.ok commits)
        (.ok a) (.ok b)).CommentedItems).drop a.length =
      b.map (fun it => { it with IsPR := false }) ∧
    (∀ x ∈ a.map (fun it => { it with IsPR := true }), x.IsPR = true) ∧
    (∀ x ∈ b.map (fun it => { it with IsPR := false }), x.IsPR = false) := by
  have hlen : (a.map (fun it => { it with IsPR := true })).length = a.length :=
    List.length_map a _
  refine ⟨rfl, rfl, ?_, ?_, ?_, ?_⟩
  · show (a.map (fun (it : CommentedItem) => { it with IsPR := true }) ++
      b.map (fun (it : CommentedItem) => { it with IsPR := false })).take a.length = _
    rw [← hlen, List.take_left]
  · show (a.map (fun (it : CommentedItem) => { it with IsPR := true }) ++
      b.map (fun (it : CommentedItem) => { it with IsPR := false })).drop a.length = _
    rw [← hlen, List.drop_left]
  · intro x hx
    simp only [List.mem_map] at hx
    obtain ⟨it, _, rfl⟩ := hx
    rfl
  · intro x hx
    simp only [List.mem_map] at hx
    obtain ⟨it, _, rfl⟩ := hx
    rfl

/-- A commented item whose source tag starts out wrong on purpose: it came
from the commented-PRs fetch. -/
def cFromPRs : CommentedItem :=
  { Number := 21, Title := "talked pr", State := "open", Author := "dog",
    Repository := { Name := "r", NameWithOwner := "o/r" }, Comments := 3,
    IsPR := false }

/-- A commented item from the commented-issues fetch. -/
def cFromIssues : CommentedItem :=
  { Number := 22, Title := "talked issue", State := "open", Author := "dog",
    Repository := { Name := "r", NameWithOwner := "o/r" }, Comments := 1,
    IsPR := true }

/-- C7, witness: concatenation and retagging on one item from each source. -/
theorem c7_witness :
    (FetchActivityCmd (Except.ok ([] : List PullRequest))
        (Except.ok ([] : List Issue)) (Except.ok ([] : List Review))
        (Except.ok ([] : List Commit)) (Except.ok [cFromPRs])
        (Except.ok [cFromIssues])).CommentedItems =
      [{ cFromPRs with IsPR := true }, { cFromIssues with IsPR := false }] := by
  have h := (c7_commented_concat [] [] [] [] [cFromPRs] [cFromIssues]).2.1
  simpa using h

/-- C4: when the merge-duration sample set is empty both the average and the
median are reported as zero (no indexing happens — every access below is
total); when it is non-empty the samples are sorted ascending and the median
is the element at index `⌊n/2⌋` of the sorted permutation (for even `n` the
upper-middle element), which is a valid index. -/
theorem c4_median (prs : List PullRequest) (issues : List Issue)
    (reviews : List Review) (commits : List Commit)
    (items : List CommentedItem) (dr : Range) :
    (mergeTimesOf prs = [] →
      (Compute prs issues reviews commits items dr).AvgMergeTime = 0 ∧
      (Compute prs issues reviews commits items dr).MedMergeTime = 0) ∧
    (mergeTimesOf prs ≠ [] →
      ∃ l : List Int, l.Perm (mergeTimesOf prs) ∧ l.Sorted (· ≤ ·) ∧
        (Compute prs issues reviews commits items dr).MedMergeTime =
          l.getD ((mergeTimesOf prs).length / 2) 0 ∧
        (mergeTimesOf prs).length / 2 < l.length ∧
        (Compute prs issues reviews commits items dr).AvgMergeTime =
          (l.foldl (· + ·) 0).tdiv (mergeTimesOf prs).length) := by
  have hmed : (Compute prs issues reviews commits items dr).MedMergeTime =
      if (mergeTimesOf prs).length > 0 then
        ((mergeTimesOf prs).insertionSort (· ≤ ·)).getD
          ((mergeTimesOf prs).length / 2) 0
      else 0 := rfl
  have havg : (Compute prs issues reviews commits items dr).AvgMergeTime =
      if (mergeTimesOf prs).length > 0 then
        (((mergeTimesOf prs).insertionSort (· ≤ ·)).foldl (· + ·) 0).tdiv
          (mergeTimesOf prs).length
      else 0 := rfl
  constructor
  · intro h
    rw [hmed, havg, h]
    simp
  · intro h
    have hpos : 0 < (mergeTimesOf prs).length := List.length_pos.mpr h
    refine ⟨(mergeTimesOf prs).insertionSort (· ≤ ·),
      List.perm_insertionSort _ _, List.sorted_insertionSort _ _, ?_, ?_, ?_⟩
    · rw [hmed, if_pos hpos]
    · rw [List.length_insertionSort]
      exact Nat.div_lt_self hpos one_lt_two
    · rw [havg, if_pos hpos]

/-- Four merged pull requests with merge durations of 4, 1, 3 and 2 days, an
even-length sample set whose sorted form is `[1, 2, 3, 4]` days. -/
def evenSamplePRs : List PullRequest :=
  [{ mergedPR with CreatedAt := 0, MergedAt := some (4 * nsPerDay) },
   { mergedPR with CreatedAt := 0, MergedAt := some nsPerDay },
   { mergedPR with CreatedAt := 0, MergedAt := some (3 * nsPerDay) },
   { mergedPR with CreatedAt := 0, MergedAt := some (2 * nsPerDay) }]

/-- C4, witness: on the even-length sample set the median is the
upper-middle sorted sample (3 days), not an interpolated midpoint. -/
theorem c4_witness :
    mergeTimesOf evenSamplePRs ≠ [] ∧
    (∃ l : List Int, l.Perm (mergeTimesOf evenSamplePRs) ∧ l.Sorted (· ≤ ·) ∧
      (Compute evenSamplePRs [] [] [] [] oneDayRange).MedMergeTime =
        l.getD ((mergeTimesOf evenSamplePRs).length / 2) 0 ∧
      (mergeTimesOf evenSamplePRs).length / 2 < l.length ∧
      (Compute evenSamplePRs [] [] [] [] oneDayRange).AvgMergeTime =
        (l.foldl (· + ·) 0).tdiv (mergeTimesOf evenSamplePRs).length) ∧
    (Compute evenSamplePRs [] [] [] [] oneDayRange).MedMergeTime = 3 * nsPerDay :=
  ⟨by decide, (c4_median evenSamplePRs [] [] [] [] oneDayRange).2 (by decide),
    by decide⟩

/-! ### Rollup helper lemmas (for C6) -/

/-- Sum of one projected counter over a list of rollup rows. -/
def sumBy (g : RepoStats → Nat) (l : List RepoStats) : Nat := (l.map g).sum

/-- An upsert whose increment adds one to the projected counter adds one to
its sum over all rows. -/
theorem sumBy_addStat_incr (g : RepoStats → Nat) (f : RepoStats → RepoStats)
    (name : String) (l : List RepoStats)
    (hf : ∀ r, g (f r) = g r + 1) (h0 : g (zeroRow name) = 0) :
    sumBy g (addStat name f l) = sumBy g l + 1 := by
  induction l with
  | nil => simp [sumBy, addStat, hf, h0]
  | cons rs rest ih =>
    simp only [addStat]
    split_ifs with h
    · simp [sumBy, hf]
      omega
    · simp only [sumBy, List.map_cons, List.sum_cons] at ih ⊢
      omega

/-- An upsert whose increment leaves the projected counter alone preserves
its sum over all rows. -/
theorem sumBy_addStat_eq (g : RepoStats → Nat) (f : RepoStats → RepoStats)
    (name : String) (l : List RepoStats)
    (hf : ∀ r, g (f r) = g r) (h0 : g (zeroRow name) = 0) :
    sumBy g (addStat name f l) = sumBy g l := by
  induction l with
  | nil => simp [sumBy, addStat, hf, h0]
  | cons rs rest ih =>
    simp only [addStat]
    split_ifs with h
    · simp [sumBy, hf]
    · simp only [sumBy, List.map_cons, List.sum_cons] at ih ⊢
      omega

/-- One accumulation pass with an incrementing upsert adds its own input
length to the counter sum. -/
theorem sumBy_fold_incr {α : Type} (g : RepoStats → Nat)
    (key : α → String) (f : RepoStats → RepoStats)
    (hf : ∀ r, g (f r) = g r + 1) (h0 : ∀ name, g (zeroRow name) = 0)
    (xs : List α) (l : List RepoStats) :
    sumBy g (xs.foldl (fun acc x => addStat (key x) f acc) l) =
      sumBy g l + xs.length := by
  induction xs generalizing l with
  | nil => simp
  | cons x rest ih =>
    simp only [List.foldl_cons, List.length_cons]
    rw [ih, sumBy_addStat_incr g f (key x) l hf (h0 (key x))]
    omega

/-- One accumulation pass with a counter-preserving upsert preserves the
counter sum. -/
theorem sumBy_fold_eq {α : Type} (g : RepoStats → Nat)
    (key : α → String) (f : RepoStats → RepoStats)
    (hf : ∀ r, g (f r) = g r) (h0 : ∀ name, g (zeroRow name) = 0)
    (xs : List α) (l : List RepoStats) :
    sumBy g (xs.foldl (fun acc x => addStat (key x) f acc) l) = sumBy g l := by
  induction xs generalizing l with
  | nil => simp
  | cons x rest ih =>
    simp only [List.foldl_cons]
    rw [ih, sumBy_addStat_eq g f (key x) l hf (h0 (key x))]

/-- Row PR counts in the raw rollup sum to the PR-collection size. -/
theorem rollup_sum_PRs (prs : List PullRequest) (issues : List Issue)
    (reviews : List Review) (commits : List Commit)
    (items : List CommentedItem) :
    sumBy (fun x => x.PRs) (rollupRaw prs issues reviews commits items) =
      prs.length := by
  unfold rollupRaw
  rw [sumBy_fold_eq (fun x => x.PRs) _ bumpCommented (fun r => rfl) (fun n => rfl)]
  rw [sumBy_fold_eq (fun x => x.PRs) _ bumpCommits (fun r => rfl) (fun n => rfl)]
  rw [sumBy_fold_eq (fun x => x.PRs) _ bumpReviews (fun r => rfl) (fun n => rfl)]
  rw [sumBy_fold_eq (fun x => x.PRs) _ bumpIssues (fun r => rfl) (fun n => rfl)]
  rw [sumBy_fold_incr (fun x => x.PRs) _ bumpPRs (fun r => rfl) (fun n => rfl)]
  simp [sumBy]

/-- Row issue counts in the raw rollup sum to the issue-collection size. -/
theorem rollup_sum_Issues (prs : List PullRequest) (issues : List Issue)
    (reviews : List Review) (commits : List Commit)
    (items : List CommentedItem) :
    sumBy (fun x => x.Issues) (rollupRaw prs issues reviews commits items) =
      issues.length := by
  unfold rollupRaw
  rw [sumBy_fold_eq (fun x => x.Issues) _ bumpCommented (fun r => rfl) (fun n => rfl)]
  rw [sumBy_fold_eq (fun x => x.Issues) _ bumpCommits (fun r => rfl) (fun n => rfl)]
  rw [sumBy_fold_eq (fun x => x.Issues) _ bumpReviews (fun r => rfl) (fun n => rfl)]
  rw [sumBy_fold_incr (fun x => x.Issues) _ bumpIssues (fun r => rfl) (fun n => rfl)]
  rw [sumBy_fold_eq (fun x => x.Issues) _ bumpPRs (fun r => rfl) (fun n => rfl)]
  simp [sumBy]

/-- Row review counts in the raw rollup sum to the review-collection size. -/
theorem rollup_sum_Reviews (prs : List PullRequest) (issues : List Issue)
    (reviews : List Review) (commits : List Commit)
    (items : List CommentedItem) :
    sumBy (fun x => x.Reviews) (rollupRaw prs issues reviews commits items) =
      reviews.length := by
  unfold rollupRaw
  rw [sumBy_fold_eq (fun x => x.Reviews) _ bumpCommented (fun r => rfl) (fun n => rfl)]
  rw [sumBy_fold_eq (fun x => x.Reviews) _ bumpCommits (fun r => rfl) (fun n => rfl)]
  rw [sumBy_fold_incr (fun x => x.Reviews) _ bumpReviews (fun r => rfl) (fun n => rfl)]
  rw [sumBy_fold_eq (fun x => x.Reviews) _ bumpIssues (fun r => rfl) (fun n => rfl)]
  rw [sumBy_fold_eq (fun x => x.Reviews) _ bumpPRs (fun r => rfl) (fun n => rfl)]
  simp [sumBy]

/-- Row commit counts in the raw rollup sum to the commit-collection size. -/
theorem rollup_sum_Commits (prs : List PullRequest) (issues : List Issue)
    (reviews : List Review) (commits : List Commit)
    (items : List CommentedItem) :
    sumBy (fun x => x.Commits) (rollupRaw prs issues reviews commits items) =
      commits.length := by
  unfold rollupRaw
  rw [sumBy_fold_eq (fun x => x.Commits) _ bumpCommented (fun r => rfl) (fun n => rfl)]
  rw [sumBy_fold_incr (fun x => x.Commits) _ bumpCommits (fun r => rfl) (fun n => rfl)]
  rw [sumBy_fold_eq (fun x => x.Commits) _ bumpReviews (fun r => rfl) (fun n => rfl)]
  rw [sumBy_fold_eq (fun x => x.Commits) _ bumpIssues (fun r => rfl) (fun n => rfl)]
  rw [sumBy_fold_eq (fun x => x.Commits) _ bumpPRs (fun r => rfl) (fun n => rfl)]
  simp [sumBy]

/-- Row commented-item counts in the raw rollup sum to the commented-items
collection size. -/
theorem rollup_sum_Commented (prs : List PullRequest) (issues : List Issue)
    (reviews : List Review) (commits : List Commit)
    (items : List CommentedItem) :
    sumBy (fun x => x.CommentedItems) (rollupRaw prs issues reviews commits items) =
      items.length := by
  unfold rollupRaw
  rw [sumBy_fold_incr (fun x => x.CommentedItems) _ bumpCommented (fun r => rfl) (fun n => rfl)]
  rw [sumBy_fold_eq (fun x => x.CommentedItems) _ bumpCommits (fun r => rfl) (fun n => rfl)]
  rw [sumBy_fold_eq (fun x => x.CommentedItems) _ bumpReviews (fun r => rfl) (fun n => rfl)]
  rw [sumBy_fold_eq (fun x => x.CommentedItems) _ bumpIssues (fun r => rfl) (fun n => rfl)]
  rw [sumBy_fold_eq (fun x => x.CommentedItems) _ bumpPRs (fun r => rfl) (fun n => rfl)]
  simp [sumBy]

/-- The grand-total pass does not change any per-kind counter sum. -/
theorem sumBy_withTotals (g : RepoStats → Nat) (l : List RepoStats)
    (hf : ∀ r : RepoStats, g { r with Total := r.PRs + r.Issues + r.Reviews +
      r.Commits + r.CommentedItems } = g r) :
    sumBy g (withTotals l) = sumBy g l := by
  simp only [sumBy, withTotals, List.map_map]
  congr 1
  exact List.map_congr_left (fun r _ => hf r)

/-- Sorting is a permutation, so it preserves every counter sum. -/
theorem sumBy_sort (g : RepoStats → Nat) (l : List RepoStats) :
    sumBy g (l.insertionSort repoOrder) = sumBy g l :=
  ((List.perm_insertionSort repoOrder l).map g).sum_eq

/-- The rollup field of the metrics is the sorted, totalled rollup. -/
theorem compute_repoStats (prs : List PullRequest) (issues : List Issue)
    (reviews : List Review) (commits : List Commit)
    (items : List CommentedItem) (dr : Range) :
    (Compute prs issues reviews commits items dr).RepoStats =
      (withTotals (rollupRaw prs issues reviews commits items)).insertionSort
        repoOrder := rfl

/-- C6: the per-repository rollup is consistent with the input totals — each
per-kind counter sums over all rows to the corresponding collection size,
the grand total of every row is the sum of its five per-kind counts, and the rows
are sorted descending by grand total. -/
theorem c6_rollup (prs : List PullRequest) (issues : List Issue)
    (reviews : List Review) (commits : List Commit)
    (items : List CommentedItem) (dr : Range) :
    sumBy (fun x => x.PRs)
      (Compute prs issues reviews commits items dr).RepoStats = prs.length ∧
    sumBy (fun x => x.Issues)
      (Compute prs issues reviews commits items dr).RepoStats = issues.length ∧
    sumBy (fun x => x.Reviews)
      (Compute prs issues reviews commits items dr).RepoStats = reviews.length ∧
    sumBy (fun x => x.Commits)
      (Compute prs issues reviews commits items dr).RepoStats = commits.length ∧
    sumBy (fun x => x.CommentedItems)
      (Compute prs issues reviews commits items dr).RepoStats = items.length ∧
    (∀ rs ∈ (Compute prs issues reviews commits items dr).RepoStats,
      rs.Total = rs.PRs + rs.Issues + rs.Reviews + rs.Commits +
        rs.CommentedItems) ∧
    List.Sorted repoOrder
      (Compute prs issues reviews commits items dr).RepoStats := by
  rw [compute_repoStats]
  refine ⟨?_, ?_, ?_, ?_, ?_, ?_, List.sorted_insertionSort repoOrder _⟩
  · rw [sumBy_sort, sumBy_withTotals (fun x => x.PRs) _ (fun r => rfl),
      rollup_sum_PRs]
  · rw [sumBy_sort, sumBy_withTotals (fun x => x.Issues) _ (fun r => rfl),
      rollup_sum_Issues]
  · rw [sumBy_sort, sumBy_withTotals (fun x => x.Reviews) _ (fun r => rfl),
      rollup_sum_Reviews]
  · rw [sumBy_sort, sumBy_withTotals (fun x => x.Commits) _ (fun r => rfl),
      rollup_sum_Commits]
  · rw [sumBy_sort, sumBy_withTotals (fun x => x.CommentedItems) _ (fun r => rfl),
      rollup_sum_Commented]
  · intro rs hrs
    rw [List.mem_insertionSort] at hrs
    simp only [withTotals, List.mem_map] at hrs
    obtain ⟨r, _, rfl⟩ := hrs
    rfl

/-- A commit in a second repository. -/
def commitA : Commit :=
  { SHA := "abc1234", Message := "fix things", AuthorDate := nsPerDay,
    RepositoryFullName := "o/other" }

/-- C6, witness: rollup consistency on a two-repository input. -/
theorem c6_witness :
    sumBy (fun x => x.PRs)
      (Compute [mergedPR, openPR] [] [] [commitA] [] oneDayRange).RepoStats = 2 ∧
    sumBy (fun x => x.Commits)
      (Compute [mergedPR, openPR] [] [] [commitA] [] oneDayRange).RepoStats = 1 ∧
    (∀ rs ∈ (Compute [mergedPR, openPR] [] [] [commitA] [] oneDayRange).RepoStats,
      rs.Total = rs.PRs + rs.Issues + rs.Reviews + rs.Commits +
        rs.CommentedItems) ∧
    List.Sorted repoOrder
      (Compute [mergedPR, openPR] [] [] [commitA] [] oneDayRange).RepoStats := by
  have h := c6_rollup [mergedPR, openPR] [] [] [commitA] [] oneDayRange
  exact ⟨h.1, h.2.2.2.1, h.2.2.2.2.2.1, h.2.2.2.2.2.2⟩

/-- The numeric value of a digit character is below ten. -/
theorem digitVal_lt_ten {c : Char} (h : isDigitChar c = true) : digitVal c < 10 := by
  simp only [isDigitChar, Bool.and_eq_true, decide_eq_true_eq] at h
  unfold digitVal
  omega

/-- Rendering the value of a digit character yields the character back. -/
theorem digitChar_digitVal {c : Char} (h : isDigitChar c = true) :
    digitChar (digitVal c) = c := by
  simp only [isDigitChar, Bool.and_eq_true, decide_eq_true_eq] at h
  unfold digitChar digitVal
  have he : 48 + (c.toNat - 48) = c.toNat := by omega
  rw [he, Char.ofNat_toNat]

/-- The rendered digit of a value below ten is a digit character. -/
theorem isDigitChar_digitChar {n : Nat} (h : n < 10) :
    isDigitChar (digitChar n) = true := by
  interval_cases n <;> decide

/-- The value of a rendered digit below ten is the value itself. -/
theorem digitVal_digitChar {n : Nat} (h : n < 10) : digitVal (digitChar n) = n := by
  interval_cases n <;> decide

/-- No month has more than 31 days. -/
theorem daysInMonth_le_31 (y m : Int) : daysInMonth y m ≤ 31 := by
  unfold daysInMonth
  split_ifs <;> omega

/-- The Go date parse succeeds exactly on well-formed
`YYYY-MM-DD` calendar dates: the parser from the code and the spec-modelled
`IsValidDateString` predicate agree on every character list. -/
theorem parseDateChars_isSome_iff (l : List Char) :
    (parseDateChars l).isSome = true ↔
    (∃ y m d : Nat, y ≤ 9999 ∧ 1 ≤ m ∧ m ≤ 12 ∧ 1 ≤ d ∧
      (d : Int) ≤ daysInMonth (y : Int) (m : Int) ∧
      l = pad4 y ++ '-' :: (pad2 m ++ '-' :: pad2 d)) := by
  constructor
  · intro h
    obtain _ | ⟨c1, _ | ⟨c2, _ | ⟨c3, _ | ⟨c4, _ | ⟨c5, _ | ⟨c6, _ | ⟨c7,
      _ | ⟨c8, _ | ⟨c9, _ | ⟨c10, _ | ⟨c11, rest⟩⟩⟩⟩⟩⟩⟩⟩⟩⟩⟩ := l <;>
      try exact Bool.noConfusion h
    simp only [parseDateChars] at h
    split_ifs at h with hdig hrange
    · simp only [Bool.and_eq_true, beq_iff_eq] at hdig
      obtain ⟨⟨⟨⟨⟨⟨⟨⟨⟨h1, h2⟩, h3⟩, h4⟩, h5⟩, h6⟩, h7⟩, h8⟩, h9⟩, h10⟩ := hdig
      simp only [Bool.and_eq_true, decide_eq_true_eq] at hrange
      obtain ⟨⟨⟨hm1, hm2⟩, hd1⟩, hd2⟩ := hrange
      refine ⟨1000 * digitVal c1 + 100 * digitVal c2 + 10 * digitVal c3 + digitVal c4,
        10 * digitVal c6 + digitVal c7, 10 * digitVal c9 + digitVal c10,
        ?_, ?_, ?_, ?_, ?_, ?_⟩
      · have := digitVal_lt_ten h1
        have := digitVal_lt_ten h2
        have := digitVal_lt_ten h3
        have := digitVal_lt_ten h4
        omega
      · omega
      · omega
      · omega
      · exact hd2
      · have e1 := digitVal_lt_ten h1
        have e2 := digitVal_lt_ten h2
        have e3 := digitVal_lt_ten h3
        have e4 := digitVal_lt_ten h4
        have e6 := digitVal_lt_ten h6
        have e7 := digitVal_lt_ten h7
        have e9 := digitVal_lt_ten h9
        have e10 := digitVal_lt_ten h10
        simp only [pad4, pad2, List.cons_append, List.nil_append]
        have q1 : (1000 * digitVal c1 + 100 * digitVal c2 + 10 * digitVal c3 +
            digitVal c4) / 1000 = digitVal c1 := by omega
        have q2 : (1000 * digitVal c1 + 100 * digitVal c2 + 10 * digitVal c3 +
            digitVal c4) / 100 % 10 = digitVal c2 := by omega
        have q3 : (1000 * digitVal c1 + 100 * digitVal c2 + 10 * digitVal c3 +
            digitVal c4) / 10 % 10 = digitVal c3 := by omega
        have q4 : (1000 * digitVal c1 + 100 * digitVal c2 + 10 * digitVal c3 +
            digitVal c4) % 10 = digitVal c4 := by omega
        have q6 : (10 * digitVal c6 + digitVal c7) / 10 = digitVal c6 := by omega
        have q7 : (10 * digitVal c6 + digitVal c7) % 10 = digitVal c7 := by omega
        have q9 : (10 * digitVal c9 + digitVal c10) / 10 = digitVal c9 := by omega
        have q10 : (10 * digitVal c9 + digitVal c10) % 10 = digitVal c10 := by omega
        rw [q1, q2, q3, q4, q6, q7, q9, q10,
          digitChar_digitVal h1, digitChar_digitVal h2, digitChar_digitVal h3,
          digitChar_digitVal h4, digitChar_digitVal h6, digitChar_digitVal h7,
          digitChar_digitVal h9, digitChar_digitVal h10, h5, h8]
    · exact Bool.noConfusion h
    · exact Bool.noConfusion h
  · rintro ⟨y, m, d, hy, hm1, hm2, hd1, hd2, rfl⟩
    have hd31 : d ≤ 31 := by
      have h31 := daysInMonth_le_31 (y : Int) (m : Int)
      omega
    have hy1 : y / 1000 < 10 := by omega
    have hy2 : y / 100 % 10 < 10 := by omega
    have hy3 : y / 10 % 10 < 10 := by omega
    have hy4 : y % 10 < 10 := by omega
    have hm1' : m / 10 < 10 := by omega
    have hm2' : m % 10 < 10 := by omega
    have hd1' : d / 10 < 10 := by omega
    have hd2' : d % 10 < 10 := by omega
    simp only [pad4, pad2, List.cons_append, List.nil_append, parseDateChars]
    split_ifs with hA hB
    · rfl
    · exfalso
      apply hB
      simp only [Bool.and_eq_true, decide_eq_true_eq]
      rw [digitVal_digitChar hy1, digitVal_digitChar hy2, digitVal_digitChar hy3,
        digitVal_digitChar hy4, digitVal_digitChar hm1', digitVal_digitChar hm2',
        digitVal_digitChar hd1', digitVal_digitChar hd2']
      have ey : 1000 * (y / 1000) + 100 * (y / 100 % 10) + 10 * (y / 10 % 10) +
          y % 10 = y := by omega
      have em : 10 * (m / 10) + m % 10 = m := by omega
      have ed : 10 * (d / 10) + d % 10 = d := by omega
      rw [ey, em, ed]
      refine ⟨⟨⟨?_, ?_⟩, ?_⟩, ?_⟩
      · omega
      · omega
      · omega
      · exact hd2
    · exfalso
      apply hA
      simp only [Bool.and_eq_true, beq_iff_eq]
      exact ⟨⟨⟨⟨⟨⟨⟨⟨⟨isDigitChar_digitChar hy1, isDigitChar_digitChar hy2⟩,
        isDigitChar_digitChar hy3⟩, isDigitChar_digitChar hy4⟩, trivial⟩,
        isDigitChar_digitChar hm1'⟩, isDigitChar_digitChar hm2'⟩, trivial⟩,
        isDigitChar_digitChar hd1'⟩, isDigitChar_digitChar hd2'⟩


/-- The window from 2024-02-01 to 2024-03-01. -/
def febWindow : Range :=
  { Start := daysFromCivil 2024 2 1 * nsPerDay, End := daysFromCivil 2024 3 1 * nsPerDay }

/-- C8: custom window construction succeeds exactly when both strings parse
and the end does not precede the start (with ≤ stated through the parsed
instants); a parse succeeds exactly on well-formed `YYYY-MM-DD` dates (the
spec-modelled predicate); every constructed window satisfies `Start ≤ End`;
start 2024-03-01 / end 2024-02-01 is rejected; 2024-02-01..2024-03-01 is a
valid 29-day window; equal start and end dates are accepted. -/
theorem c8_custom_window :
    (∀ s e : String, (∃ r, Custom s e = Except.ok r) ↔
      ((Parse s).isSome = true ∧ (Parse e).isSome = true ∧
        ∀ a b : Int, Parse s = some a → Parse e = some b → a ≤ b)) ∧
    (∀ (s e : String) (r : Range), Custom s e = Except.ok r → r.Start ≤ r.End) ∧
    (∀ s : String, (Parse s).isSome = true ↔ IsValidDateString s) ∧
    (∃ msg, Custom "2024-03-01" "2024-02-01" = Except.error msg) ∧
    (∃ r, Custom "2024-02-01" "2024-03-01" = Except.ok r ∧
      r.End - r.Start = 29 * nsPerDay) ∧
    (∃ r, Custom "2024-05-05" "2024-05-05" = Except.ok r) := by
  refine ⟨?_, ?_, ?_, ?_, ?_, ?_⟩
  · intro s e
    unfold Custom
    cases hs : Parse s with
    | none => simp
    | some a =>
      cases he : Parse e with
      | none => simp
      | some b =>
        dsimp only
        by_cases hlt : b < a
        · rw [if_pos hlt]
          constructor
          · rintro ⟨r, hr⟩
            exact absurd hr (by simp)
          · rintro ⟨-, -, hle⟩
            have := hle a b rfl rfl
            omega
        · rw [if_neg hlt]
          constructor
          · rintro ⟨r, hr⟩
            refine ⟨rfl, rfl, ?_⟩
            rintro a' b' ha hb
            injection ha with ha
            injection hb with hb
            omega
          · rintro ⟨-, -, -⟩
            exact ⟨{ Start := a, End := b }, rfl⟩
  · intro s e r h
    unfold Custom at h
    cases hs : Parse s with
    | none => rw [hs] at h; exact Except.noConfusion h
    | some a =>
      rw [hs] at h
      cases he : Parse e with
      | none => rw [he] at h; exact Except.noConfusion h
      | some b =>
        rw [he] at h
        dsimp only at h
        split_ifs at h with hlt
        all_goals first
          | exact Except.noConfusion h
          | (injection h with h
             subst h
             show a ≤ b
             omega)
  · intro s
    exact parseDateChars_isSome_iff s.data
  · exact ⟨"end date must not be before start date", rfl⟩
  · exact ⟨febWindow, rfl, by decide⟩
  · exact ⟨{ Start := daysFromCivil 2024 5 5 * nsPerDay,
             End := daysFromCivil 2024 5 5 * nsPerDay }, rfl⟩

/-- C8, witness: the February 2024 window has `Start ≤ End`. -/
theorem c8_witness : febWindow.Start ≤ febWindow.End :=
  c8_custom_window.2.1 "2024-02-01" "2024-03-01" febWindow rfl

end ActivityCat
